import Mathlib

/-!
Verification of the beautification engine of FilterCamera
(`src/core/filter/src/main/cpp/beautify/MagicBeautify.cpp` and `.h`).

The engine is shallowly embedded: pixel buffers become total functions
`Nat -> Nat` (a packed ARGB32 word per offset), the C++ singleton state
becomes the `Engine` structure, and each member function becomes a Lean
function on `Engine`.  32-bit float scalars (the smoothing statistics and
the slider levels) are modelled exactly over `Rat`; the whitening curve,
which calls `logf`, is modelled over the reals with `Real.log`.  The
unsigned 64-bit integral-image arithmetic is modelled with explicit
wrap-around modulo `2 ^ 64`.

The helper translation units `bitmap/Conversion.cpp` and
`bitmap/BitmapOperation.cpp` are not part of the published sources; the
definitions below that correspond to them are modelled from the spec
(sections 4.1 and 4.2 of the design document) and are marked as such.
-/

/-- Byte number `k` (from the least significant end) of a packed word. -/
def byteAt (k p : ℕ) : ℕ := p / 2 ^ (8 * k) % 256

/-- The source's `clamp(x, 0, 255)` on a C `int`, then cast to a byte:
`max(0, min(255, x))`. -/
def clamp255 (z : ℤ) : ℕ := (max 0 (min 255 z)).toNat

/-- Round `z / 1000` to the nearest integer, halves up: the `round` of the
spec's conversion formulas, applied to an expression whose coefficients have
been scaled by 1000 (so `rndDiv z = ⌊z / 1000 + 1 / 2⌋`; the division is
integer floor division). -/
def rndDiv (z : ℤ) : ℤ := (z + 500) / 1000

/-- Modelled from the spec: `Conversion::RGBToYCbCr` (section 4.1), which is
not among the published sources.  Reads bytes `(r, g, b)` of an ARGB32 word
(bytes 2, 1, 0) and produces the `(Y, Cb, Cr)` triple by the BT.601
full-range formulas, rounded and clamped to `[0, 255]` (all coefficients
scaled by 1000). -/
def rgbToYCbCr (p : ℕ) : ℕ × ℕ × ℕ :=
  let r : ℤ := byteAt 2 p
  let g : ℤ := byteAt 1 p
  let b : ℤ := byteAt 0 p
  ( clamp255 (rndDiv (299 * r + 587 * g + 114 * b)),
    clamp255 (rndDiv (-169 * r - 331 * g + 500 * b + 128000)),
    clamp255 (rndDiv (500 * r - 419 * g - 81 * b + 128000)) )

/-- Modelled from the spec: one pixel of `Conversion::YCbCrToRGB`
(section 4.1), which is not among the published sources.  Rebuilds the ARGB
word from a `(Y, Cb, Cr)` triple, writing the converted channels into bytes
2, 1, 0 and preserving the alpha byte `a` of the destination buffer (all
coefficients scaled by 1000). -/
def ycbcrToRgb (a : ℕ) (t : ℕ × ℕ × ℕ) : ℕ :=
  let y : ℤ := t.1
  let cb : ℤ := t.2.1
  let cr : ℤ := t.2.2
  let r := clamp255 (rndDiv (1000 * y + 1402 * (cr - 128)))
  let g := clamp255 (rndDiv (1000 * y - 344 * (cb - 128) - 714 * (cr - 128)))
  let b := clamp255 (rndDiv (1000 * y + 1772 * (cb - 128)))
  a * 2 ^ 24 + r * 2 ^ 16 + g * 2 ^ 8 + b

/-- The channel struct filled by `BitmapOperation::convertIntToArgb`. -/
structure ARGB where
  red : ℕ
  green : ℕ
  blue : ℕ
  alpha : ℕ

/-- Modelled from the spec: `BitmapOperation::convertIntToArgb`, which is not
among the published sources.  Per the quirk recorded in section 4.2 and
scenario S3 of the spec, the struct's field names are swapped with respect to
the packed byte order: the field called `blue` holds byte 2 of the word (R in
standard naming), `green` holds byte 1, `red` holds byte 0, `alpha` byte 3. -/
def convertIntToArgb (p : ℕ) : ARGB :=
  ⟨byteAt 0 p, byteAt 1 p, byteAt 2 p, byteAt 3 p⟩

/-- Modelled from the spec: `BitmapOperation::convertArgbToInt`, the inverse
packing of `convertIntToArgb`. -/
def convertArgbToInt (c : ARGB) : ℕ :=
  c.alpha * 2 ^ 24 + c.blue * 2 ^ 16 + c.green * 2 ^ 8 + c.red

/-- Skin predicate of `MagicBeautify::initSkinMatrix`: rule A (typical skin)
or rule B (pale skin), evaluated on the quirk-named channels. -/
def isSkinPix (p : ℕ) : Bool :=
  let c := convertIntToArgb p
  (decide (95 < c.blue) && decide (40 < c.green) && decide (20 < c.red) &&
      decide (15 < (c.blue : ℤ) - (c.red : ℤ)) &&
      decide (15 < (c.blue : ℤ) - (c.green : ℤ))) ||
    (decide (200 < c.blue) && decide (210 < c.green) && decide (170 < c.red) &&
      decide (((c.blue : ℤ) - (c.red : ℤ)).natAbs ≤ 15) &&
      decide (c.red < c.blue) && decide (c.red < c.green))

/-- The skin mask built by `MagicBeautify::initSkinMatrix`: byte 255 for a
skin pixel, 0 otherwise. -/
def initSkinMatrix (rgbf : ℕ → ℕ) : ℕ → ℕ :=
  fun off => if isSkinPix (rgbf off) then 255 else 0

/-- Truncation toward zero of a real, the C cast `(int)` applied to a float. -/
noncomputable def truncInt (x : ℝ) : ℤ := if x < 0 then ⌈x⌉ else ⌊x⌋

/-- One channel of `MagicBeautify::_startWhiteSkin`: the logarithmic curve
`255 * log(div255(c) * (level - 1) + 1) / log(level)`, truncated and clamped.
The source's `div255` multiplies by the float literal `0.003921568627451`. -/
noncomputable def whitenChannel (l : ℚ) (c : ℕ) : ℕ :=
  clamp255 (truncInt ((255 : ℝ) *
    (Real.log ((c : ℝ) * (3921568627451 / 10 ^ 15) * ((l : ℝ) - 1) + 1) /
      Real.log (l : ℝ))))

/-- One pixel of `MagicBeautify::_startWhiteSkin`: each colour channel is run
through `whitenChannel`, the alpha field is copied unchanged from the source
pixel (which the loop reads from `mImageData_rgb`). -/
noncomputable def whitenPix (l : ℚ) (p : ℕ) : ℕ :=
  let c := convertIntToArgb p
  convertArgbToInt
    { red := whitenChannel l c.red, green := whitenChannel l c.green,
      blue := whitenChannel l c.blue, alpha := c.alpha }

/-- The `columnSum` accumulator of `MagicBeautify::initIntegral` after
processing rows `0 .. i`: the sum of `Y` down column `j`. -/
def colSum (Y : ℕ → ℕ → ℕ) : ℕ → ℕ → ℕ
  | 0, j => Y 0 j
  | i + 1, j => colSum Y i j + Y (i + 1) j

/-- The integral image built by `MagicBeautify::initIntegral`, written with
the source's recurrence: entry `(i, j)` is the running row total of the
column sums (`j = 0` starts the row, otherwise the previous entry plus the
column sum). -/
def satRec (Y : ℕ → ℕ → ℕ) (i : ℕ) : ℕ → ℕ
  | 0 => colSum Y i 0
  | j + 1 => satRec Y i j + colSum Y i (j + 1)

/-- Luminance viewed as a two-dimensional grid: the Y entry of the
interleaved YCbCr buffer at row `i`, column `j`. -/
def yOf (w : ℕ) (yuvf : ℕ → ℕ × ℕ × ℕ) : ℕ → ℕ → ℕ :=
  fun i j => (yuvf (i * w + j)).1

/-- Both buffers filled by `MagicBeautify::initIntegral`: the integral image
of Y and of Y squared, addressed by flat offset `i * w + j`. -/
def initIntegral (w : ℕ) (yuvf : ℕ → ℕ × ℕ × ℕ) : (ℕ → ℕ) × (ℕ → ℕ) :=
  ( fun off => satRec (yOf w yuvf) (off / w) (off % w),
    fun off => satRec (fun i j => yOf w yuvf i j * yOf w yuvf i j) (off / w) (off % w) )

/-- The `BeautyResult` enum of `MagicBeautify.h` (in declaration order, so
`statusCode` reproduces the numeric values). -/
inductive BeautyResult where
  | success
  | errNotInited
  | sizeTooLarge
  | sizeTooSmall
  | invalidData
  | memoryAlloc
  | processing
deriving DecidableEq, Repr

/-- Numeric status codes of the enum (spec section 6). -/
def statusCode : BeautyResult → ℕ
  | .success => 0
  | .errNotInited => 1
  | .sizeTooLarge => 2
  | .sizeTooSmall => 3
  | .invalidData => 4
  | .memoryAlloc => 5
  | .processing => 6

/-- The caller's bitmap descriptor (`JniBitmap`): dimensions plus a pixel
buffer; `none` models a null `_storedBitmapPixels` pointer. -/
structure JniBitmap where
  width : ℕ
  height : ℕ
  pixels : Option (ℕ → ℕ)

/-- The singleton state of `MagicBeautify`.  `output` is the caller-owned
buffer aliased by `storedBitmapPixels` (modelled as a total function; no
claim observes it before it is set); the five owned buffers are `Option`s so
that `none` models a null pointer.  `inited` is `mInitialized`. -/
structure Engine where
  w : ℕ
  h : ℕ
  output : ℕ → ℕ
  rgb : Option (ℕ → ℕ)
  yuv : Option (ℕ → ℕ × ℕ × ℕ)
  skin : Option (ℕ → ℕ)
  intg : Option (ℕ → ℕ)
  intgSqr : Option (ℕ → ℕ)
  smoothLevel : ℚ
  whitenLevel : ℚ
  inited : Bool

/-- The state established by the `MagicBeautify` constructor. -/
def engine0 : Engine :=
  ⟨0, 0, fun _ => 0, none, none, none, none, none, 0, 0, false⟩

/-- `MagicBeautify::isSizeSafe`, with the three checks in source order
(dimensions are C `int`s that are non-negative in every call). -/
def isSizeSafe (w h : ℕ) : Bool :=
  if w < 32 || h < 32 then false
  else if 2048 < w || 2048 < h then false
  else if 4000000 < w * h then false
  else true

/-- `MagicBeautify::initMagicBeautify`.  `alloc k` tells whether the `k`-th
of the five buffer allocations succeeds (the source wraps them in one
`try`/`catch` that frees everything and returns `MemoryAlloc`).  Note the
source returns `BEAUTY_ERROR_SIZE_TOO_LARGE` for every unsafe size and does
not touch `mInitialized` on the allocation-failure path. -/
def initMagicBeautify (e : Engine) (bm : Option JniBitmap) (alloc : ℕ → Bool) :
    Engine × BeautyResult :=
  match bm with
  | none => (e, .invalidData)
  | some b =>
    match b.pixels with
    | none => (e, .invalidData)
    | some px =>
      if !isSizeSafe b.width b.height then (e, .sizeTooLarge)
      else
        let e1 : Engine :=
          { e with rgb := none, yuv := none, skin := none, intg := none,
                   intgSqr := none, output := px, w := b.width, h := b.height }
        if alloc 0 && alloc 1 && alloc 2 && alloc 3 && alloc 4 then
          let yuvf := fun off => rgbToYCbCr (px off)
          let sats := initIntegral b.width yuvf
          ({ e1 with rgb := some px, yuv := some yuvf,
                     skin := some (initSkinMatrix px),
                     intg := some sats.1, intgSqr := some sats.2,
                     inited := true }, .success)
        else (e1, .memoryAlloc)

/-- The per-pixel body of the `_startSkinSmooth` loop at an interior skin
pixel `(i, j)`: mean and variance of Y over the clamped radius window, read
from the integral images with unsigned 64-bit arithmetic, then the variance
blend; `yCur` is the pixel's current Y.  Returns the new Y byte. -/
def smoothOne (w h pc radius : ℕ) (intgf intg2f : ℕ → ℕ) (s : ℚ)
    (yCur i j : ℕ) : ℕ :=
  let iMax := min (i + radius) (h - 1)
  let jMax := min (j + radius) (w - 1)
  let iMin := max (i - radius) 1
  let jMin := max (j - radius) 1
  let area := (iMax - iMin + 1) * (jMax - jMin + 1)
  if area = 0 then yCur
  else
    let idx4 := iMax * w + jMax
    let idx3 := (iMin - 1) * w + (jMin - 1)
    let idx2 := iMax * w + (jMin - 1)
    let idx1 := (iMin - 1) * w + jMax
    if pc ≤ idx4 ∨ pc ≤ idx2 then yCur
    else
      let sum : ℕ :=
        (((intgf idx4 : ℤ) + intgf idx3 - intgf idx2 - intgf idx1) % 2 ^ 64).toNat
      let sum2 : ℕ :=
        (((intg2f idx4 : ℤ) + intg2f idx3 - intg2f idx2 - intg2f idx1) % 2 ^ 64).toNat
      let m : ℚ := (sum : ℚ) / (area : ℚ)
      let v : ℚ := (sum2 : ℚ) / (area : ℚ) - m * m
      let k : ℚ := v / (v + s)
      let newY : ℚ := m - k * m + k * (yCur : ℚ)
      clamp255 ⌈newY⌉

/-- The YCbCr buffer after the smoothing loop: every interior pixel whose
skin byte is 255 gets its Y replaced by `smoothOne`; chroma and all other
pixels are untouched. -/
def smoothYuv (w h pc radius : ℕ) (yuvf : ℕ → ℕ × ℕ × ℕ)
    (skinf intgf intg2f : ℕ → ℕ) (s : ℚ) : ℕ → ℕ × ℕ × ℕ :=
  fun off =>
    let i := off / w
    let j := off % w
    let t := yuvf off
    if 1 ≤ i ∧ i + 1 < h ∧ 1 ≤ j ∧ j + 1 < w ∧ skinf off = 255 then
      (smoothOne w h pc radius intgf intg2f s t.1 i j, t.2.1, t.2.2)
    else t

/-- `MagicBeautify::_startSkinSmooth`: null-pointer guards, then the YCbCr
buffer is recomputed from `mImageData_rgb`, the interior skin pixels are
smoothed, and the result is converted back into the output buffer (alpha
bytes of the destination preserved).  The radius `(int)(max(w,h) * 0.02f)`
is modelled exactly as `max w h * 2 / 100`.  The source also dereferences
`mImageData_rgb` without a null check; a state where it is null but the
checked buffers are not is unreachable, and the model returns the state
unchanged there. -/
def startSkinSmoothImpl (e : Engine) (s : ℚ) : Engine :=
  match e.intg, e.intgSqr, e.skin, e.yuv, e.rgb with
  | some intgf, some intg2f, some skinf, some _, some rgbf =>
    let pc := e.w * e.h
    let yuv1 := fun off => rgbToYCbCr (rgbf off)
    let radius := max 2 (min 20 (max e.w e.h * 2 / 100))
    let yuv2 := smoothYuv e.w e.h pc radius yuv1 skinf intgf intg2f s
    let out2 := fun off =>
      if off < pc then ycbcrToRgb (byteAt 3 (e.output off)) (yuv2 off)
      else e.output off
    { e with yuv := some yuv2, output := out2 }
  | _, _, _, _, _ => e

open Classical in
/-- `MagicBeautify::_startWhiteSkin`: null guard on the RGB snapshot, the
early exit when `logf(level)` is zero, otherwise every pixel of the output
buffer is rewritten with the whitened copy of `mImageData_rgb`. -/
noncomputable def startWhiteSkinImpl (e : Engine) (l : ℚ) : Engine :=
  match e.rgb with
  | none => e
  | some rgbf =>
    if Real.log (l : ℝ) = 0 then e
    else
      let pc := e.w * e.h
      { e with output := fun off =>
          if off < pc then whitenPix l (rgbf off) else e.output off }

/-- `MagicBeautify::_startBeauty`: the `mInitialized` guard, then smoothing
when the smooth level is in `[10, 510]` (storing it), then whitening when
the whiten level is in `[1, 5]` (storing it); always `BEAUTY_SUCCESS` once
past the guard. -/
noncomputable def startBeautyImpl (e : Engine) (s l : ℚ) : Engine × BeautyResult :=
  if e.inited = false then (e, .errNotInited)
  else
    let e1 := if 10 ≤ s ∧ s ≤ 510 then startSkinSmoothImpl { e with smoothLevel := s } s else e
    let e2 := if 1 ≤ l ∧ l ≤ 5 then startWhiteSkinImpl { e1 with whitenLevel := l } l else e1
    (e2, .success)

/-- `MagicBeautify::startSkinSmooth`: forwards the memoized whiten level. -/
noncomputable def startSkinSmooth (e : Engine) (s : ℚ) : Engine × BeautyResult :=
  startBeautyImpl e s e.whitenLevel

/-- `MagicBeautify::startWhiteSkin`: forwards the memoized smooth level. -/
noncomputable def startWhiteSkin (e : Engine) (l : ℚ) : Engine × BeautyResult :=
  startBeautyImpl e e.smoothLevel l

/-- An effect call on an initialized engine. -/
inductive BOp where
  | whiten (l : ℚ)
  | smooth (s : ℚ)

/-- Run one effect call, keeping the state. -/
noncomputable def applyOp (e : Engine) : BOp → Engine
  | .whiten l => (startWhiteSkin e l).1
  | .smooth s => (startSkinSmooth e s).1

/-- Run a sequence of effect calls. -/
noncomputable def runOps (e : Engine) : List BOp → Engine
  | [] => e
  | op :: rest => runOps (applyOp e op) rest

/-- The allocator that always succeeds. -/
def allocOk : ℕ → Bool := fun _ => true

/-- The allocator whose fourth allocation fails (spec scenario S6). -/
def failAlloc : ℕ → Bool := fun n => decide (n < 3)

/-- An engine freshly and successfully initialized from a `w` by `h` image
with pixel buffer `px`. -/
def goodInit (px : ℕ → ℕ) (w h : ℕ) : Engine :=
  (initMagicBeautify engine0 (some ⟨w, h, some px⟩) allocOk).1

/-! ### Basic facts about bytes, packing, and clamping -/

lemma clamp255_le (z : ℤ) : clamp255 z ≤ 255 := by
  simp only [clamp255, min_def, max_def]
  split_ifs <;> omega

lemma clamp255_lt (z : ℤ) : clamp255 z < 256 :=
  Nat.lt_succ_of_le (clamp255_le z)

lemma byteAt_lt (k p : ℕ) : byteAt k p < 256 := by
  simp only [byteAt]
  exact Nat.mod_lt _ (by norm_num)

lemma byteAt_pack0 (a b g r : ℕ) (hb : b < 256) (hg : g < 256) (hr : r < 256) :
    byteAt 0 (a * 2 ^ 24 + b * 2 ^ 16 + g * 2 ^ 8 + r) = r := by
  simp only [byteAt]
  norm_num
  omega

lemma byteAt_pack1 (a b g r : ℕ) (hb : b < 256) (hg : g < 256) (hr : r < 256) :
    byteAt 1 (a * 2 ^ 24 + b * 2 ^ 16 + g * 2 ^ 8 + r) = g := by
  simp only [byteAt]
  norm_num
  omega

lemma byteAt_pack2 (a b g r : ℕ) (hb : b < 256) (hg : g < 256) (hr : r < 256) :
    byteAt 2 (a * 2 ^ 24 + b * 2 ^ 16 + g * 2 ^ 8 + r) = b := by
  simp only [byteAt]
  norm_num
  omega

lemma byteAt_pack3 (a b g r : ℕ) (ha : a < 256) (hb : b < 256) (hg : g < 256)
    (hr : r < 256) :
    byteAt 3 (a * 2 ^ 24 + b * 2 ^ 16 + g * 2 ^ 8 + r) = a := by
  simp only [byteAt]
  norm_num
  omega

lemma ycbcrToRgb_byte3 (a : ℕ) (t : ℕ × ℕ × ℕ) (ha : a < 256) :
    byteAt 3 (ycbcrToRgb a t) = a := by
  simp only [ycbcrToRgb]
  exact byteAt_pack3 _ _ _ _ ha (clamp255_lt _) (clamp255_lt _) (clamp255_lt _)

lemma whitenPix_byte3 (l : ℚ) (p : ℕ) : byteAt 3 (whitenPix l p) = byteAt 3 p := by
  simp only [whitenPix, convertArgbToInt, convertIntToArgb]
  exact byteAt_pack3 _ _ _ _ (byteAt_lt 3 p) (clamp255_lt _) (clamp255_lt _) (clamp255_lt _)

lemma whitenPix_byte0 (l : ℚ) (p : ℕ) :
    byteAt 0 (whitenPix l p) = whitenChannel l (byteAt 0 p) := by
  simp only [whitenPix, convertArgbToInt, convertIntToArgb]
  exact byteAt_pack0 _ _ _ _ (clamp255_lt _) (clamp255_lt _) (clamp255_lt _)

lemma whitenPix_byte1 (l : ℚ) (p : ℕ) :
    byteAt 1 (whitenPix l p) = whitenChannel l (byteAt 1 p) := by
  simp only [whitenPix, convertArgbToInt, convertIntToArgb]
  exact byteAt_pack1 _ _ _ _ (clamp255_lt _) (clamp255_lt _) (clamp255_lt _)

lemma whitenPix_byte2 (l : ℚ) (p : ℕ) :
    byteAt 2 (whitenPix l p) = whitenChannel l (byteAt 2 p) := by
  simp only [whitenPix, convertArgbToInt, convertIntToArgb]
  exact byteAt_pack2 _ _ _ _ (clamp255_lt _) (clamp255_lt _) (clamp255_lt _)

/-! ### Structural facts about the engine operations -/

lemma smoothImpl_fields (e : Engine) (s : ℚ) :
    (startSkinSmoothImpl e s).w = e.w ∧ (startSkinSmoothImpl e s).h = e.h ∧
    (startSkinSmoothImpl e s).rgb = e.rgb ∧
    (startSkinSmoothImpl e s).skin = e.skin ∧
    (startSkinSmoothImpl e s).intg = e.intg ∧
    (startSkinSmoothImpl e s).intgSqr = e.intgSqr ∧
    (startSkinSmoothImpl e s).smoothLevel = e.smoothLevel ∧
    (startSkinSmoothImpl e s).whitenLevel = e.whitenLevel ∧
    (startSkinSmoothImpl e s).inited = e.inited := by
  obtain ⟨w, h, out, rgb, yuv, skin, intg, intg2, sl, wl, bI⟩ := e
  cases intg <;> cases intg2 <;> cases skin <;> cases yuv <;> cases rgb <;>
    simp [startSkinSmoothImpl]

lemma smoothImpl_output_ge (e : Engine) (s : ℚ) (off : ℕ) (hoff : e.w * e.h ≤ off) :
    (startSkinSmoothImpl e s).output off = e.output off := by
  obtain ⟨w, h, out, rgb, yuv, skin, intg, intg2, sl, wl, bI⟩ := e
  cases intg <;> cases intg2 <;> cases skin <;> cases yuv <;> cases rgb <;>
    simp_all [startSkinSmoothImpl]

lemma whitenImpl_fields (e : Engine) (l : ℚ) :
    (startWhiteSkinImpl e l).w = e.w ∧ (startWhiteSkinImpl e l).h = e.h ∧
    (startWhiteSkinImpl e l).rgb = e.rgb ∧
    (startWhiteSkinImpl e l).yuv = e.yuv ∧
    (startWhiteSkinImpl e l).skin = e.skin ∧
    (startWhiteSkinImpl e l).intg = e.intg ∧
    (startWhiteSkinImpl e l).intgSqr = e.intgSqr ∧
    (startWhiteSkinImpl e l).smoothLevel = e.smoothLevel ∧
    (startWhiteSkinImpl e l).whitenLevel = e.whitenLevel ∧
    (startWhiteSkinImpl e l).inited = e.inited := by
  obtain ⟨w, h, out, rgb, yuv, skin, intg, intg2, sl, wl, bI⟩ := e
  cases rgb <;> simp [startWhiteSkinImpl] <;> split <;> simp

lemma whitenImpl_output (e : Engine) (l : ℚ) (f : ℕ → ℕ) (hrgb : e.rgb = some f)
    (hlog : Real.log (l : ℝ) ≠ 0) (off : ℕ) (hoff : off < e.w * e.h) :
    (startWhiteSkinImpl e l).output off = whitenPix l (f off) := by
  obtain ⟨w, h, out, rgb, yuv, skin, intg, intg2, sl, wl, bI⟩ := e
  simp only [Engine.rgb] at hrgb
  subst hrgb
  simp only [Engine.w, Engine.h] at hoff
  simp [startWhiteSkinImpl, hlog, hoff]

lemma beautyImpl_fields (e : Engine) (s l : ℚ) (hin : e.inited = true) :
    (startBeautyImpl e s l).1.w = e.w ∧ (startBeautyImpl e s l).1.h = e.h ∧
    (startBeautyImpl e s l).1.rgb = e.rgb ∧
    (startBeautyImpl e s l).1.skin = e.skin ∧
    (startBeautyImpl e s l).1.intg = e.intg ∧
    (startBeautyImpl e s l).1.intgSqr = e.intgSqr ∧
    (startBeautyImpl e s l).1.inited = true ∧
    (startBeautyImpl e s l).1.smoothLevel =
      (if 10 ≤ s ∧ s ≤ 510 then s else e.smoothLevel) ∧
    (startBeautyImpl e s l).1.whitenLevel =
      (if 1 ≤ l ∧ l ≤ 5 then l else e.whitenLevel) ∧
    (startBeautyImpl e s l).2 = BeautyResult.success := by
  simp only [startBeautyImpl, hin]
  split_ifs with h1 h2 h2 <;>
    simp_all [whitenImpl_fields, smoothImpl_fields, hin]

lemma beautyImpl_whiten_output (e : Engine) (s l : ℚ) (f : ℕ → ℕ)
    (hin : e.inited = true) (hrgb : e.rgb = some f) (h1 : 1 < l) (h5 : l ≤ 5)
    (off : ℕ) (hoff : off < e.w * e.h) :
    (startBeautyImpl e s l).1.output off = whitenPix l (f off) := by
  have hlog : Real.log (l : ℝ) ≠ 0 := by
    have : (1 : ℝ) < (l : ℝ) := by exact_mod_cast h1
    exact ne_of_gt (Real.log_pos this)
  have hcond : 1 ≤ l ∧ l ≤ 5 := ⟨le_of_lt h1, h5⟩
  unfold startBeautyImpl
  rw [if_neg (by simp [hin])]
  dsimp only
  rw [if_pos hcond]
  by_cases hs : 10 ≤ s ∧ s ≤ 510
  · rw [if_pos hs]
    have hF := smoothImpl_fields { e with smoothLevel := s } s
    refine whitenImpl_output _ l f ?_ hlog off ?_
    · show (startSkinSmoothImpl { e with smoothLevel := s } s).rgb = some f
      exact hF.2.2.1.trans hrgb
    · show off < (startSkinSmoothImpl { e with smoothLevel := s } s).w *
        (startSkinSmoothImpl { e with smoothLevel := s } s).h
      rw [hF.1, hF.2.1]
      exact hoff
  · rw [if_neg hs]
    exact whitenImpl_output { e with whitenLevel := l } l f hrgb hlog off hoff

lemma isSizeSafe_bounds {w h : ℕ} (hsz : isSizeSafe w h = true) :
    32 ≤ w ∧ 32 ≤ h ∧ w ≤ 2048 ∧ h ≤ 2048 ∧ w * h ≤ 4000000 := by
  simp only [isSizeSafe] at hsz
  split_ifs at hsz <;> simp_all <;> omega

lemma goodInit_eq (px : ℕ → ℕ) (w h : ℕ) (hsz : isSizeSafe w h = true) :
    goodInit px w h =
      { w := w, h := h, output := px, rgb := some px,
        yuv := some (fun off => rgbToYCbCr (px off)),
        skin := some (initSkinMatrix px),
        intg := some (initIntegral w (fun off => rgbToYCbCr (px off))).1,
        intgSqr := some (initIntegral w (fun off => rgbToYCbCr (px off))).2,
        smoothLevel := 0, whitenLevel := 0, inited := true } := by
  simp [goodInit, initMagicBeautify, hsz, allocOk, engine0]

/-! ### The whitening curve at level 2 on a mid-gray channel -/

lemma whitenChannel_two_128 : whitenChannel 2 128 = 149 := by
  have hX : ((128 : ℕ) : ℝ) * (3921568627451 / 10 ^ 15) * (((2:ℚ) : ℝ) - 1) + 1
      = 1501960784313728 / 10 ^ 15 := by
    push_cast
    norm_num
  have h2 : (0:ℝ) < Real.log 2 := Real.log_pos (by norm_num)
  have hlo : (2:ℝ) ^ (149:ℕ) ≤ (1501960784313728 / 10 ^ 15 : ℝ) ^ (255:ℕ) := by
    rw [div_pow, le_div_iff₀ (by positivity)]
    norm_num
  have hhi : ((1501960784313728 / 10 ^ 15 : ℝ)) ^ (255:ℕ) < 2 ^ (150:ℕ) := by
    rw [div_pow, div_lt_iff₀ (by positivity)]
    norm_num
  have hloglo : (149:ℝ) * Real.log 2 ≤ 255 * Real.log (1501960784313728 / 10 ^ 15) := by
    have := (Real.log_le_log_iff (by positivity) (by positivity)).mpr hlo
    rwa [Real.log_pow, Real.log_pow] at this
  have hloghi : (255:ℝ) * Real.log (1501960784313728 / 10 ^ 15) < 150 * Real.log 2 := by
    have := Real.log_lt_log (by positivity) hhi
    rwa [Real.log_pow, Real.log_pow] at this
  set r : ℝ := (255 : ℝ) * (Real.log (1501960784313728 / 10 ^ 15) / Real.log 2) with hr
  have hrlo : (149:ℝ) ≤ r := by
    rw [hr, mul_div_assoc', le_div_iff₀ h2]
    exact hloglo
  have hrhi : r < 150 := by
    rw [hr, mul_div_assoc', div_lt_iff₀ h2]
    exact hloghi
  have hfloor : ⌊r⌋ = 149 := by
    rw [Int.floor_eq_iff]
    constructor
    · exact_mod_cast hrlo
    · push_cast
      linarith
  have htrunc : truncInt r = 149 := by
    rw [truncInt, if_neg (by push_neg; linarith)]
    exact hfloor
  rw [whitenChannel, hX, show (((2:ℚ)) : ℝ) = (2:ℝ) from by norm_num, htrunc]
  decide

/-! ### Helper lemmas for the claim theorems -/

/-- The uniform mid-gray test image of spec scenario S1. -/
def grayPx : ℕ → ℕ := fun _ => 0xFF808080

/-- A uniform image of a pixel that rule A classifies as skin and whose
colour channels include a mid-gray byte. -/
def skinTonePx : ℕ → ℕ := fun _ => 0xFF804020

/-- A uniform pure-red image: not skin, and lossy under the YCbCr
round-trip. -/
def redPx : ℕ → ℕ := fun _ => 0xFFFF0000

lemma whitenImpl_one (e : Engine) : startWhiteSkinImpl e 1 = e := by
  obtain ⟨w, h, out, rgb, yuv, skin, intg, intg2, sl, wl, bI⟩ := e
  cases rgb
  · rfl
  · simp [startWhiteSkinImpl]

lemma startWhiteSkin_one (e : Engine) (hin : e.inited = true)
    (hs : ¬(10 ≤ e.smoothLevel ∧ e.smoothLevel ≤ 510)) :
    (startWhiteSkin e 1).2 = BeautyResult.success ∧
    (startWhiteSkin e 1).1.output = e.output ∧
    (startWhiteSkin e 1).1.rgb = e.rgb := by
  unfold startWhiteSkin startBeautyImpl
  rw [if_neg (by simp [hin])]
  dsimp only
  rw [if_neg hs, if_pos (by norm_num : (1:ℚ) ≤ 1 ∧ (1:ℚ) ≤ 5), whitenImpl_one]
  exact ⟨rfl, rfl, rfl⟩

lemma smoothYuv_skip (w h pc radius : ℕ) (yuvf : ℕ → ℕ × ℕ × ℕ)
    (skinf intgf intg2f : ℕ → ℕ) (s : ℚ) (off : ℕ)
    (hc : ¬(1 ≤ off / w ∧ off / w + 1 < h ∧ 1 ≤ off % w ∧ off % w + 1 < w ∧
      skinf off = 255)) :
    smoothYuv w h pc radius yuvf skinf intgf intg2f s off = yuvf off := by
  simp only [smoothYuv]
  rw [if_neg hc]

/-! ### Claim C4 -/

/-- C4: the claim says a too-small image (`w < 32` or `h < 32`) makes
`initMagicBeautify` return `SizeTooSmall` (status 3).  The code instead
returns `BEAUTY_ERROR_SIZE_TOO_LARGE` (status 2) for every unsafe size:
on a 16-by-64 image with non-null pixels the result is `sizeTooLarge`,
not `sizeTooSmall`, while genuinely oversized input (3000 by 3000) also
yields `sizeTooLarge` as the claim states. -/
theorem c4_small_size_status :
    (initMagicBeautify engine0 (some ⟨16, 64, some (fun _ => 0)⟩) allocOk).2 =
        BeautyResult.sizeTooLarge ∧
    (initMagicBeautify engine0 (some ⟨16, 64, some (fun _ => 0)⟩) allocOk).2 ≠
        BeautyResult.sizeTooSmall ∧
    statusCode BeautyResult.sizeTooLarge = 2 ∧
    statusCode BeautyResult.sizeTooSmall = 3 ∧
    (initMagicBeautify engine0 (some ⟨3000, 3000, some (fun _ => 0)⟩) allocOk).2 =
        BeautyResult.sizeTooLarge :=
  ⟨by decide, by decide, rfl, rfl, by decide⟩

/-! ### Claim C5 -/

/-- C5: the claim says that after an allocation failure in the initializer
the engine's initialized flag is false and no partial state is observable.
On a freshly created engine that holds, but re-initializing an already
initialized engine with an allocator whose fourth allocation fails (spec
scenario S6) returns `memoryAlloc` with every owned buffer freed while
`mInitialized` is left `true`: an observable partial state. -/
theorem c5_reinit_flag_bug :
    (initMagicBeautify (goodInit grayPx 64 64) (some ⟨64, 64, some grayPx⟩)
        failAlloc).2 = BeautyResult.memoryAlloc ∧
    (initMagicBeautify (goodInit grayPx 64 64) (some ⟨64, 64, some grayPx⟩)
        failAlloc).1.rgb = none ∧
    (initMagicBeautify (goodInit grayPx 64 64) (some ⟨64, 64, some grayPx⟩)
        failAlloc).1.yuv = none ∧
    (initMagicBeautify (goodInit grayPx 64 64) (some ⟨64, 64, some grayPx⟩)
        failAlloc).1.skin = none ∧
    (initMagicBeautify (goodInit grayPx 64 64) (some ⟨64, 64, some grayPx⟩)
        failAlloc).1.intg = none ∧
    (initMagicBeautify (goodInit grayPx 64 64) (some ⟨64, 64, some grayPx⟩)
        failAlloc).1.intgSqr = none ∧
    (initMagicBeautify (goodInit grayPx 64 64) (some ⟨64, 64, some grayPx⟩)
        failAlloc).1.inited = true ∧
    (initMagicBeautify engine0 (some ⟨64, 64, some grayPx⟩) failAlloc).2 =
        BeautyResult.memoryAlloc ∧
    (initMagicBeautify engine0 (some ⟨64, 64, some grayPx⟩) failAlloc).1.inited =
        false :=
  ⟨rfl, rfl, rfl, rfl, rfl, rfl, rfl, rfl, rfl⟩

/-! ### Claim C6 -/

lemma gray_whiten_output (i : ℕ) (hi : i < 64 * 64) :
    (startWhiteSkin (goodInit grayPx 64 64) 2).1.output i = whitenPix 2 0xFF808080 := by
  have hg := goodInit_eq grayPx 64 64 (by decide)
  have hin : (goodInit grayPx 64 64).inited = true := by rw [hg]
  have hrgb : (goodInit grayPx 64 64).rgb = some grayPx := by rw [hg]
  have hw : (goodInit grayPx 64 64).w = 64 := by rw [hg]
  have hh : (goodInit grayPx 64 64).h = 64 := by rw [hg]
  exact beautyImpl_whiten_output (goodInit grayPx 64 64)
    (goodInit grayPx 64 64).smoothLevel 2 grayPx hin hrgb (by norm_num)
    (by norm_num) i (by rw [hw, hh]; exact hi)

lemma gray_whiten_bytes :
    byteAt 0 (whitenPix 2 0xFF808080) = 149 ∧
    byteAt 1 (whitenPix 2 0xFF808080) = 149 ∧
    byteAt 2 (whitenPix 2 0xFF808080) = 149 ∧
    byteAt 3 (whitenPix 2 0xFF808080) = 255 := by
  refine ⟨?_, ?_, ?_, ?_⟩
  · rw [whitenPix_byte0, show byteAt 0 0xFF808080 = 128 from by decide,
      whitenChannel_two_128]
  · rw [whitenPix_byte1, show byteAt 1 0xFF808080 = 128 from by decide,
      whitenChannel_two_128]
  · rw [whitenPix_byte2, show byteAt 2 0xFF808080 = 128 from by decide,
      whitenChannel_two_128]
  · rw [whitenPix_byte3]
    decide

/-- C6 (amended): after initializing on the 64-by-64 opaque uniform image
`0xFF808080` and calling `startWhiteSkin 2.0`, every output pixel's three
colour channels equal 149 — not 152 plus or minus 1 as the claim states,
because the code truncates `255 * log2(1 + 128 * 0.003921568627451)`, which
lies in `[149, 150)` — and every alpha byte stays `0xFF`. -/
theorem c6_uniform_whiten_amended (i : ℕ) (hi : i < 64 * 64) :
    byteAt 0 ((startWhiteSkin (goodInit grayPx 64 64) 2).1.output i) = 149 ∧
    byteAt 1 ((startWhiteSkin (goodInit grayPx 64 64) 2).1.output i) = 149 ∧
    byteAt 2 ((startWhiteSkin (goodInit grayPx 64 64) 2).1.output i) = 149 ∧
    byteAt 3 ((startWhiteSkin (goodInit grayPx 64 64) 2).1.output i) = 255 := by
  rw [gray_whiten_output i hi]
  exact gray_whiten_bytes

/-- C6 (counterexample): on the scenario of the claim the R channel of
output pixel 0 is 149, which is not within 1 of 152. -/
theorem c6_counterexample :
    byteAt 2 ((startWhiteSkin (goodInit grayPx 64 64) 2).1.output 0) = 149 ∧
    (149 : ℕ) < 151 := by
  constructor
  · rw [gray_whiten_output 0 (by decide)]
    exact gray_whiten_bytes.2.2.1
  · decide

/-- C6 (witness): the amended theorem applied at pixel 0. -/
theorem c6_uniform_whiten_amended_witness :
    (0 : ℕ) < 64 * 64 ∧
    (byteAt 0 ((startWhiteSkin (goodInit grayPx 64 64) 2).1.output 0) = 149 ∧
     byteAt 1 ((startWhiteSkin (goodInit grayPx 64 64) 2).1.output 0) = 149 ∧
     byteAt 2 ((startWhiteSkin (goodInit grayPx 64 64) 2).1.output 0) = 149 ∧
     byteAt 3 ((startWhiteSkin (goodInit grayPx 64 64) 2).1.output 0) = 255) :=
  ⟨by decide, c6_uniform_whiten_amended 0 (by decide)⟩

/-! ### Claim C7 -/

/-- C7 (amended): on a freshly initialized engine (no stored smoothing
level), `startWhiteSkin 1.0` takes the early exit — `logf(1.0)` is zero —
returns `BEAUTY_SUCCESS` having performed a no-op whitening, and leaves the
output buffer bitwise equal to the RGB snapshot `rgb_copy`.  On an engine
that has already run other effects the call still whitens nothing, but it
leaves the previous output in place (and re-runs a stored smoothing pass),
so the output need not equal `rgb_copy`. -/
theorem c7_whiten_one_amended (px : ℕ → ℕ) (w h : ℕ)
    (hsz : isSizeSafe w h = true) :
    (startWhiteSkin (goodInit px w h) 1).2 = BeautyResult.success ∧
    (goodInit px w h).rgb = some px ∧
    ∀ i, (startWhiteSkin (goodInit px w h) 1).1.output i = px i := by
  have hg := goodInit_eq px w h hsz
  have hin : (goodInit px w h).inited = true := by rw [hg]
  have hsl : (goodInit px w h).smoothLevel = 0 := by rw [hg]
  have h1 := startWhiteSkin_one (goodInit px w h) hin (by rw [hsl]; norm_num)
  refine ⟨h1.1, by rw [hg], fun i => ?_⟩
  rw [h1.2.1]
  rw [hg]

/-- C7 (counterexample): the claim quantifies over every initialized
engine.  After `startWhiteSkin 2.0` on the uniform gray image, a further
`startWhiteSkin 1.0` is a no-op on the output, which therefore stays
whitened (R byte 149) and differs from `rgb_copy` (R byte 128). -/
theorem c7_counterexample :
    (startWhiteSkin ((startWhiteSkin (goodInit grayPx 64 64) 2).1) 1).1.rgb =
        some grayPx ∧
    byteAt 2 ((startWhiteSkin ((startWhiteSkin (goodInit grayPx 64 64) 2).1)
        1).1.output 0) = 149 ∧
    byteAt 2 (grayPx 0) = 128 ∧
    (startWhiteSkin ((startWhiteSkin (goodInit grayPx 64 64) 2).1) 1).1.output 0 ≠
        grayPx 0 := by
  have hg := goodInit_eq grayPx 64 64 (by decide)
  have hin : (goodInit grayPx 64 64).inited = true := by rw [hg]
  have hrgb : (goodInit grayPx 64 64).rgb = some grayPx := by rw [hg]
  have hsl : (goodInit grayPx 64 64).smoothLevel = 0 := by rw [hg]
  have hF := beautyImpl_fields (goodInit grayPx 64 64)
    (goodInit grayPx 64 64).smoothLevel 2 hin
  have hXin : (startWhiteSkin (goodInit grayPx 64 64) 2).1.inited = true :=
    hF.2.2.2.2.2.2.1
  have hXrgb : (startWhiteSkin (goodInit grayPx 64 64) 2).1.rgb = some grayPx :=
    hF.2.2.1.trans hrgb
  have hXsl : (startWhiteSkin (goodInit grayPx 64 64) 2).1.smoothLevel = 0 := by
    have h2 := hF.2.2.2.2.2.2.2.1
    rw [hsl, ite_self] at h2
    exact h2
  have h1 := startWhiteSkin_one (startWhiteSkin (goodInit grayPx 64 64) 2).1
    hXin (by rw [hXsl]; norm_num)
  have hout : (startWhiteSkin ((startWhiteSkin (goodInit grayPx 64 64) 2).1)
      1).1.output 0 = whitenPix 2 0xFF808080 := by
    rw [h1.2.1]
    exact gray_whiten_output 0 (by decide)
  refine ⟨h1.2.2.trans hXrgb, ?_, by decide, ?_⟩
  · rw [hout]
    exact gray_whiten_bytes.2.2.1
  · rw [hout]
    intro hcontra
    have hb := congrArg (byteAt 2) hcontra
    rw [gray_whiten_bytes.2.2.1] at hb
    have : byteAt 2 (grayPx 0) = 128 := by decide
    omega

/-- C7 (witness): the amended theorem on the 64-by-64 gray image, with the
pointwise conclusion read off at pixel 0. -/
theorem c7_whiten_one_amended_witness :
    isSizeSafe 64 64 = true ∧
    (startWhiteSkin (goodInit grayPx 64 64) 1).2 = BeautyResult.success ∧
    (goodInit grayPx 64 64).rgb = some grayPx ∧
    (startWhiteSkin (goodInit grayPx 64 64) 1).1.output 0 = grayPx 0 :=
  ⟨by decide, (c7_whiten_one_amended grayPx 64 64 (by decide)).1,
   (c7_whiten_one_amended grayPx 64 64 (by decide)).2.1,
   (c7_whiten_one_amended grayPx 64 64 (by decide)).2.2 0⟩

/-! ### Claim C10 -/

/-- C10: on an initialized engine whose stored whiten level `l` lies in
`(1, 5]`, a smoothing call with sigma in `[10, 510]` succeeds, runs the
smoothing pass, and then re-runs whitening at level `l` over every pixel
from the RGB snapshot; the resulting output is bit-identical to the output
of a whitening call at level `l` alone on any engine sharing the same
snapshot and dimensions, so such a smoothing call has no observable effect
on the output buffer. -/
theorem c10_smooth_after_whiten_noop (e e' : Engine) (f : ℕ → ℕ) (l s : ℚ)
    (hin : e.inited = true) (hin' : e'.inited = true)
    (hrgb : e.rgb = some f) (hrgb' : e'.rgb = some f)
    (hw : e'.w = e.w) (hh : e'.h = e.h)
    (hl : e.whitenLevel = l) (h1 : 1 < l) (h5 : l ≤ 5)
    (hs : 10 ≤ s) (hs2 : s ≤ 510) :
    (startSkinSmooth e s).2 = BeautyResult.success ∧
    ∀ i, i < e.w * e.h →
      (startSkinSmooth e s).1.output i = (startWhiteSkin e' l).1.output i ∧
      (startSkinSmooth e s).1.output i = whitenPix l (f i) := by
  constructor
  · show (startBeautyImpl e s e.whitenLevel).2 = BeautyResult.success
    exact (beautyImpl_fields e s e.whitenLevel hin).2.2.2.2.2.2.2.2.2
  · intro i hi
    have hsm : (startSkinSmooth e s).1.output i = whitenPix l (f i) := by
      show (startBeautyImpl e s e.whitenLevel).1.output i = whitenPix l (f i)
      rw [hl]
      exact beautyImpl_whiten_output e s l f hin hrgb h1 h5 i hi
    have hwt : (startWhiteSkin e' l).1.output i = whitenPix l (f i) := by
      show (startBeautyImpl e' e'.smoothLevel l).1.output i = whitenPix l (f i)
      exact beautyImpl_whiten_output e' e'.smoothLevel l f hin' hrgb' h1 h5 i
        (by rw [hw, hh]; exact hi)
    exact ⟨hsm.trans hwt.symm, hsm⟩

/-- A concrete initialized engine with stored whiten level 2 over the gray
snapshot (used by the C10 witness). -/
def engW : Engine :=
  { w := 64, h := 64, output := grayPx, rgb := some grayPx,
    yuv := some (fun _ => (0, 0, 0)), skin := some (fun _ => 0),
    intg := some (fun _ => 0), intgSqr := some (fun _ => 0),
    smoothLevel := 0, whitenLevel := 2, inited := true }

/-- A second initialized engine sharing the gray snapshot and dimensions
(used by the C10 witness). -/
def engW2 : Engine :=
  { w := 64, h := 64, output := grayPx, rgb := some grayPx,
    yuv := some (fun _ => (0, 0, 0)), skin := some (fun _ => 0),
    intg := some (fun _ => 0), intgSqr := some (fun _ => 0),
    smoothLevel := 0, whitenLevel := 0, inited := true }

/-- C10 (witness): the theorem on the two concrete engines, with the
pointwise conclusion read off at pixel 0. -/
theorem c10_smooth_after_whiten_noop_witness :
    (startSkinSmooth engW 100).2 = BeautyResult.success ∧
    (startSkinSmooth engW 100).1.output 0 = (startWhiteSkin engW2 2).1.output 0 ∧
    (startSkinSmooth engW 100).1.output 0 = whitenPix 2 (grayPx 0) :=
  ⟨(c10_smooth_after_whiten_noop engW engW2 grayPx 2 100 rfl rfl rfl rfl rfl
      rfl rfl (by norm_num) (by norm_num) (by norm_num) (by norm_num)).1,
   ((c10_smooth_after_whiten_noop engW engW2 grayPx 2 100 rfl rfl rfl rfl rfl
      rfl rfl (by norm_num) (by norm_num) (by norm_num) (by norm_num)).2 0
      (by decide)).1,
   ((c10_smooth_after_whiten_noop engW engW2 grayPx 2 100 rfl rfl rfl rfl rfl
      rfl rfl (by norm_num) (by norm_num) (by norm_num) (by norm_num)).2 0
      (by decide)).2⟩

/-! ### Claim C1 -/

lemma whitenThenSmooth_out (px : ℕ → ℕ) (w h : ℕ) (hsz : isSizeSafe w h = true)
    (l s : ℚ) (h1 : 1 < l) (h5 : l ≤ 5) (i : ℕ) (hi : i < w * h) :
    (startSkinSmooth ((startWhiteSkin (goodInit px w h) l).1) s).1.output i =
      whitenPix l (px i) := by
  have hg := goodInit_eq px w h hsz
  have hin : (goodInit px w h).inited = true := by rw [hg]
  have hrgb : (goodInit px w h).rgb = some px := by rw [hg]
  have hF := beautyImpl_fields (goodInit px w h) (goodInit px w h).smoothLevel l hin
  have hXin : (startWhiteSkin (goodInit px w h) l).1.inited = true :=
    hF.2.2.2.2.2.2.1
  have hXrgb : (startWhiteSkin (goodInit px w h) l).1.rgb = some px :=
    hF.2.2.1.trans hrgb
  have hXw : (startWhiteSkin (goodInit px w h) l).1.w = w :=
    hF.1.trans (by rw [hg])
  have hXh : (startWhiteSkin (goodInit px w h) l).1.h = h :=
    hF.2.1.trans (by rw [hg])
  have hXwl : (startWhiteSkin (goodInit px w h) l).1.whitenLevel = l := by
    have h2 := hF.2.2.2.2.2.2.2.2.1
    rw [if_pos ⟨le_of_lt h1, h5⟩] at h2
    exact h2
  show (startBeautyImpl (startWhiteSkin (goodInit px w h) l).1 s
    (startWhiteSkin (goodInit px w h) l).1.whitenLevel).1.output i = whitenPix l (px i)
  rw [hXwl]
  exact beautyImpl_whiten_output _ s l px hXin hXrgb h1 h5 i (by rw [hXw, hXh]; exact hi)

/-- C1 (amended): after `startWhiteSkin l` with `l` in `(1, 5]` on a fresh
engine, a subsequent `startSkinSmooth sigma` with sigma in `[10, 510]` runs
the smoothing pass but then — because `startSkinSmooth` forwards the
memoized whiten level into `_startBeauty`, which whitens after smoothing —
re-runs whitening at level `l` over every pixel from the RGB snapshot.
Every pixel of the output (interior skin pixels included) therefore holds
the whitened value `whitenPix l` of the snapshot, and the smoothed-Y
reconstruction is discarded, not the other way around as the claim
states. -/
theorem c1_whiten_then_smooth_amended (px : ℕ → ℕ) (w h : ℕ)
    (hsz : isSizeSafe w h = true) (l s : ℚ) (h1 : 1 < l) (h5 : l ≤ 5)
    (hs : 10 ≤ s) (hs2 : s ≤ 510) (i : ℕ) (hi : i < w * h) :
    (startSkinSmooth ((startWhiteSkin (goodInit px w h) l).1) s).1.output i =
      whitenPix l (px i) :=
  whitenThenSmooth_out px w h hsz l s h1 h5 i hi

/-- C1 (witness): the amended theorem on a uniform skin-tone image at the
interior skin pixel 65, with whiten level 2 and sigma 100. -/
theorem c1_whiten_then_smooth_amended_witness :
    isSizeSafe 64 64 = true ∧ (1 : ℚ) < 2 ∧ (2 : ℚ) ≤ 5 ∧ (10 : ℚ) ≤ 100 ∧
    (100 : ℚ) ≤ 510 ∧ (65 : ℕ) < 64 * 64 ∧
    (startSkinSmooth ((startWhiteSkin (goodInit skinTonePx 64 64) 2).1)
        100).1.output 65 = whitenPix 2 (skinTonePx 65) :=
  ⟨by decide, by norm_num, by norm_num, by norm_num, by norm_num, by decide,
   c1_whiten_then_smooth_amended skinTonePx 64 64 (by decide) 2 100
     (by norm_num) (by norm_num) (by norm_num) (by norm_num) 65 (by decide)⟩

set_option maxRecDepth 40000 in
/-- C1 (counterexample): on the uniform skin-tone image, pixel 65 is an
interior skin pixel; after whiten(2) followed by smooth(100) its output R
byte is the whitened 149, whereas the smoothed-Y reconstruction (the output
of smooth(100) alone, which rebuilds the pixel from the snapshot's chroma)
has R byte 128.  The pixel holds the whitened value, not the smoothed
reconstruction. -/
theorem c1_counterexample :
    (goodInit skinTonePx 64 64).skin = some (initSkinMatrix skinTonePx) ∧
    initSkinMatrix skinTonePx 65 = 255 ∧
    byteAt 2 ((startSkinSmooth ((startWhiteSkin (goodInit skinTonePx 64 64) 2).1)
        100).1.output 65) = 149 ∧
    (startSkinSmooth (goodInit skinTonePx 64 64) 100).1.output 65 = 0xFF803F1F ∧
    byteAt 2 (0xFF803F1F : ℕ) = 128 ∧
    (startSkinSmooth ((startWhiteSkin (goodInit skinTonePx 64 64) 2).1)
        100).1.output 65 ≠
      (startSkinSmooth (goodInit skinTonePx 64 64) 100).1.output 65 := by
  have hwhite : (startSkinSmooth ((startWhiteSkin (goodInit skinTonePx 64 64) 2).1)
      100).1.output 65 = whitenPix 2 (skinTonePx 65) :=
    whitenThenSmooth_out skinTonePx 64 64 (by decide) 2 100 (by norm_num)
      (by norm_num) 65 (by decide)
  have hbyte : byteAt 2 (whitenPix 2 (skinTonePx 65)) = 149 := by
    rw [whitenPix_byte2, show byteAt 2 (skinTonePx 65) = 128 from by decide,
      whitenChannel_two_128]
  have hsmooth : (startSkinSmooth (goodInit skinTonePx 64 64) 100).1.output 65 =
      0xFF803F1F := by
    with_unfolding_all decide
  refine ⟨by rw [goodInit_eq skinTonePx 64 64 (by decide)], by decide,
    by rw [hwhite]; exact hbyte, hsmooth, by decide, ?_⟩
  rw [hwhite, hsmooth]
  intro hcontra
  have hb := congrArg (byteAt 2) hcontra
  rw [hbyte] at hb
  have : byteAt 2 (0xFF803F1F : ℕ) = 128 := by decide
  omega

/-! ### Claim C2 -/

lemma startSkinSmooth_fresh (px : ℕ → ℕ) (w h : ℕ) (hsz : isSizeSafe w h = true)
    (s : ℚ) (hs : 10 ≤ s) (hs2 : s ≤ 510) :
    (startSkinSmooth (goodInit px w h) s).1 =
      startSkinSmoothImpl { goodInit px w h with smoothLevel := s } s := by
  have hin : (goodInit px w h).inited = true := by rw [goodInit_eq px w h hsz]
  have hwl : (goodInit px w h).whitenLevel = 0 := by rw [goodInit_eq px w h hsz]
  unfold startSkinSmooth startBeautyImpl
  rw [if_neg (by simp [hin])]
  dsimp only
  rw [hwl, if_neg (by norm_num : ¬((1:ℚ) ≤ 0 ∧ (0:ℚ) ≤ 5)), if_pos ⟨hs, hs2⟩]

/-- C2 (amended): after `startSkinSmooth sigma` alone on a freshly
initialized engine, a pixel that is non-skin or on the outer one-pixel
border keeps its Y value — the smoothing loop never rewrites it — but the
finalization still rewrites every pixel of the output through the
RGB-to-YCbCr-to-RGB round trip of the snapshot, which is not the bitwise
identity the claim asserts. -/
theorem c2_nonskin_border_amended (px : ℕ → ℕ) (w h : ℕ)
    (hsz : isSizeSafe w h = true) (s : ℚ) (hs : 10 ≤ s) (hs2 : s ≤ 510)
    (i : ℕ) (hi : i < w * h)
    (hcl : isSkinPix (px i) = false ∨ i / w = 0 ∨ i / w = h - 1 ∨
      i % w = 0 ∨ i % w = w - 1) :
    (startSkinSmooth (goodInit px w h) s).1.output i =
      ycbcrToRgb (byteAt 3 (px i)) (rgbToYCbCr (px i)) ∧
    ∀ g, (startSkinSmooth (goodInit px w h) s).1.yuv = some g →
      g i = rgbToYCbCr (px i) := by
  have hb := isSizeSafe_bounds hsz
  have hskip : ¬(1 ≤ i / w ∧ i / w + 1 < h ∧ 1 ≤ i % w ∧ i % w + 1 < w ∧
      initSkinMatrix px i = 255) := by
    intro hcon
    obtain ⟨a1, a2, a3, a4, a5⟩ := hcon
    rcases hcl with hc | hc | hc | hc | hc
    · simp [initSkinMatrix, hc] at a5
    · rw [hc] at a1
      omega
    · rw [hc] at a2
      omega
    · rw [hc] at a3
      omega
    · rw [hc] at a4
      omega
  rw [startSkinSmooth_fresh px w h hsz s hs hs2, goodInit_eq px w h hsz]
  simp only [startSkinSmoothImpl]
  constructor
  · dsimp only
    rw [if_pos hi, smoothYuv_skip _ _ _ _ _ _ _ _ _ _ hskip]
  · intro g hgeq
    rw [Option.some_inj] at hgeq
    rw [← hgeq, smoothYuv_skip _ _ _ _ _ _ _ _ _ _ hskip]

/-- C2 (witness): the amended theorem on the 32-by-32 pure-red image at
pixel 0, which is both on the border and non-skin. -/
theorem c2_nonskin_border_amended_witness :
    isSizeSafe 32 32 = true ∧ (10 : ℚ) ≤ 100 ∧ (100 : ℚ) ≤ 510 ∧
    (0 : ℕ) < 32 * 32 ∧ isSkinPix (redPx 0) = false ∧
    (startSkinSmooth (goodInit redPx 32 32) 100).1.output 0 =
      ycbcrToRgb (byteAt 3 (redPx 0)) (rgbToYCbCr (redPx 0)) :=
  ⟨by decide, by norm_num, by norm_num, by decide, by decide,
   (c2_nonskin_border_amended redPx 32 32 (by decide) 100 (by norm_num)
     (by norm_num) 0 (by decide) (Or.inl (by decide))).1⟩

/-- C2 (counterexample): on the 32-by-32 pure-red image every pixel is
non-skin and pixel 0 is moreover on the border, yet after
`startSkinSmooth 100` alone the output at pixel 0 is the round-tripped
`0xFFFE0000`, not the snapshot value `0xFFFF0000`: the claimed bitwise
equality with `rgb_copy` fails. -/
theorem c2_counterexample :
    (goodInit redPx 32 32).rgb = some redPx ∧
    initSkinMatrix redPx 0 = 0 ∧
    (startSkinSmooth (goodInit redPx 32 32) 100).1.output 0 = 0xFFFE0000 ∧
    redPx 0 = 0xFFFF0000 ∧
    (startSkinSmooth (goodInit redPx 32 32) 100).1.output 0 ≠ redPx 0 :=
  ⟨by rw [goodInit_eq redPx 32 32 (by decide)], by decide, by decide, rfl,
   by decide⟩

/-! ### Claim C3 -/

lemma colSum_eq (Y : ℕ → ℕ → ℕ) (i j : ℕ) :
    colSum Y i j = ∑ a ∈ Finset.range (i + 1), Y a j := by
  induction i with
  | zero => simp [colSum]
  | succ i ih =>
    rw [colSum, ih]
    exact (Finset.sum_range_succ _ _).symm

lemma satRec_eq (Y : ℕ → ℕ → ℕ) (i j : ℕ) :
    satRec Y i j =
      ∑ a ∈ Finset.range (i + 1), ∑ b ∈ Finset.range (j + 1), Y a b := by
  induction j with
  | zero => simp [satRec, colSum_eq]
  | succ j ih =>
    rw [satRec, ih, colSum_eq]
    rw [← Finset.sum_add_distrib]
    exact Finset.sum_congr rfl fun a _ => (Finset.sum_range_succ _ _).symm

/-- The integral image read at possibly negative indices: the claim's
four-corner query touches row `i0 - 1` and column `j0 - 1`, which for
`i0 = 0` or `j0 = 0` fall outside the unpadded table; they are read as 0. -/
def satAt (Y : ℕ → ℕ → ℕ) (i j : ℤ) : ℤ :=
  if 0 ≤ i ∧ 0 ≤ j then satRec Y i.toNat j.toNat else 0

/-- The exclusive double prefix sum, the closed form of `satAt` shifted by
one in each coordinate. -/
def psum (Y : ℕ → ℕ → ℕ) (m n : ℕ) : ℤ :=
  ∑ a ∈ Finset.range m, ∑ b ∈ Finset.range n, (Y a b : ℤ)

lemma satAt_sub_one (Y : ℕ → ℕ → ℕ) (a b : ℕ) :
    satAt Y ((a : ℤ) - 1) ((b : ℤ) - 1) = psum Y a b := by
  cases a with
  | zero => simp [satAt, psum]
  | succ a =>
    cases b with
    | zero => simp [satAt, psum]
    | succ b =>
      have ha : ((a + 1 : ℕ) : ℤ) - 1 = (a : ℤ) := by push_cast; ring
      have hb : ((b + 1 : ℕ) : ℤ) - 1 = (b : ℤ) := by push_cast; ring
      rw [ha, hb, satAt, if_pos ⟨Int.natCast_nonneg a, Int.natCast_nonneg b⟩]
      rw [Int.toNat_natCast, Int.toNat_natCast, satRec_eq, psum]
      push_cast
      rfl

lemma psum_sub_col (Y : ℕ → ℕ → ℕ) (m0 m n' : ℕ) (hm : m0 ≤ m) :
    psum Y m n' - psum Y m0 n' =
      ∑ a ∈ Finset.Ico m0 m, ∑ b ∈ Finset.range n', (Y a b : ℤ) := by
  have h := Finset.sum_Ico_consecutive
    (fun a => ∑ b ∈ Finset.range n', (Y a b : ℤ)) (Nat.zero_le m0) hm
  simp only [← Finset.range_eq_Ico] at h
  rw [psum, psum]
  linarith [h]

lemma psum_rect (Y : ℕ → ℕ → ℕ) (m0 m n0 n : ℕ) (hm : m0 ≤ m) (hn : n0 ≤ n) :
    psum Y m n + psum Y m0 n0 - psum Y m n0 - psum Y m0 n =
      ∑ a ∈ Finset.Ico m0 m, ∑ b ∈ Finset.Ico n0 n, (Y a b : ℤ) := by
  have key : psum Y m n + psum Y m0 n0 - psum Y m n0 - psum Y m0 n =
      (psum Y m n - psum Y m0 n) - (psum Y m n0 - psum Y m0 n0) := by ring
  rw [key, psum_sub_col Y m0 m n hm, psum_sub_col Y m0 m n0 hm,
    ← Finset.sum_sub_distrib]
  refine Finset.sum_congr rfl fun a _ => ?_
  have h := Finset.sum_Ico_consecutive
    (fun b => (Y a b : ℤ)) (Nat.zero_le n0) hn
  simp only [← Finset.range_eq_Ico] at h
  linarith [h]

/-- C3: the integral image built by the source recurrence equals the
inclusive prefix sum of Y over rows `0..i` and columns `0..j`; for every
rectangle `[i0..i1] x [j0..j1]` inside the image the four-corner query
(out-of-range corners read as 0, there being no padding row or column)
equals the naive double sum over the rectangle; and the engine's `sat_y`
and `sat_y2` buffers are exactly this table for Y and for Y squared. -/
theorem c3_sat_correctness :
    (∀ (Y : ℕ → ℕ → ℕ) (i j : ℕ),
      satRec Y i j = ∑ a ∈ Finset.range (i + 1), ∑ b ∈ Finset.range (j + 1), Y a b) ∧
    (∀ (Y : ℕ → ℕ → ℕ) (w h i0 i1 j0 j1 : ℕ),
      i0 ≤ i1 → i1 < h → j0 ≤ j1 → j1 < w →
      satAt Y ((i1 : ℤ)) ((j1 : ℤ)) + satAt Y ((i0 : ℤ) - 1) ((j0 : ℤ) - 1) -
          satAt Y ((i1 : ℤ)) ((j0 : ℤ) - 1) - satAt Y ((i0 : ℤ) - 1) ((j1 : ℤ)) =
        ∑ a ∈ Finset.Icc i0 i1, ∑ b ∈ Finset.Icc j0 j1, (Y a b : ℤ)) ∧
    (∀ (px : ℕ → ℕ) (w h : ℕ), isSizeSafe w h = true →
      (goodInit px w h).intg = some (fun off =>
        satRec (yOf w (fun o => rgbToYCbCr (px o))) (off / w) (off % w)) ∧
      (goodInit px w h).intgSqr = some (fun off =>
        satRec (fun i j => yOf w (fun o => rgbToYCbCr (px o)) i j *
          yOf w (fun o => rgbToYCbCr (px o)) i j) (off / w) (off % w))) := by
  refine ⟨satRec_eq, ?_, ?_⟩
  · intro Y w h i0 i1 j0 j1 h01 h1h h02 h2w
    have e11 : satAt Y ((i1 : ℤ)) ((j1 : ℤ)) = psum Y (i1 + 1) (j1 + 1) := by
      have := satAt_sub_one Y (i1 + 1) (j1 + 1)
      rw [show ((i1 + 1 : ℕ) : ℤ) - 1 = (i1 : ℤ) by push_cast; ring,
        show ((j1 + 1 : ℕ) : ℤ) - 1 = (j1 : ℤ) by push_cast; ring] at this
      exact this
    have e10 : satAt Y ((i1 : ℤ)) ((j0 : ℤ) - 1) = psum Y (i1 + 1) j0 := by
      have := satAt_sub_one Y (i1 + 1) j0
      rw [show ((i1 + 1 : ℕ) : ℤ) - 1 = (i1 : ℤ) by push_cast; ring] at this
      exact this
    have e01 : satAt Y ((i0 : ℤ) - 1) ((j1 : ℤ)) = psum Y i0 (j1 + 1) := by
      have := satAt_sub_one Y i0 (j1 + 1)
      rw [show ((j1 + 1 : ℕ) : ℤ) - 1 = (j1 : ℤ) by push_cast; ring] at this
      exact this
    have e00 : satAt Y ((i0 : ℤ) - 1) ((j0 : ℤ) - 1) = psum Y i0 j0 :=
      satAt_sub_one Y i0 j0
    rw [e11, e10, e01, e00,
      psum_rect Y i0 (i1 + 1) j0 (j1 + 1) (by omega) (by omega),
      Nat.Ico_succ_right]
    exact Finset.sum_congr rfl fun a _ => by rw [Nat.Ico_succ_right]
  · intro px w h hsz
    rw [goodInit_eq px w h hsz]
    exact ⟨rfl, rfl⟩

/-- C3 (witness): the three parts instantiated on the grid `Y i j = i + j`
(a 4-by-4 image, rectangle rows 1..2 and columns 1..3) and, for the engine
part, the 32-by-32 red image. -/
theorem c3_sat_correctness_witness :
    (satRec (fun i j => i + j) 2 3 =
      ∑ a ∈ Finset.range (2 + 1), ∑ b ∈ Finset.range (3 + 1), (a + b)) ∧
    (satAt (fun i j => i + j) (((2 : ℕ) : ℤ)) (((3 : ℕ) : ℤ)) +
        satAt (fun i j => i + j) (((1 : ℕ) : ℤ) - 1) (((1 : ℕ) : ℤ) - 1) -
        satAt (fun i j => i + j) (((2 : ℕ) : ℤ)) (((1 : ℕ) : ℤ) - 1) -
        satAt (fun i j => i + j) (((1 : ℕ) : ℤ) - 1) (((3 : ℕ) : ℤ)) =
      ∑ a ∈ Finset.Icc 1 2, ∑ b ∈ Finset.Icc 1 3, ((a + b : ℕ) : ℤ)) ∧
    ((goodInit redPx 32 32).intg = some (fun off =>
        satRec (yOf 32 (fun o => rgbToYCbCr (redPx o))) (off / 32) (off % 32)) ∧
      (goodInit redPx 32 32).intgSqr = some (fun off =>
        satRec (fun i j => yOf 32 (fun o => rgbToYCbCr (redPx o)) i j *
          yOf 32 (fun o => rgbToYCbCr (redPx o)) i j) (off / 32) (off % 32))) :=
  ⟨c3_sat_correctness.1 (fun i j => i + j) 2 3,
   c3_sat_correctness.2.1 (fun i j => i + j) 4 4 1 2 1 3 (by decide) (by decide)
     (by decide) (by decide),
   c3_sat_correctness.2.2 redPx 32 32 (by decide)⟩

/-! ### Claim C8 -/

/-- The alpha invariant: dimensions fixed, the RGB snapshot is the original
image, and every in-range output pixel carries the original alpha byte. -/
def alphaInv (px : ℕ → ℕ) (w h : ℕ) (e : Engine) : Prop :=
  e.w = w ∧ e.h = h ∧ e.rgb = some px ∧
  ∀ j, j < w * h → byteAt 3 (e.output j) = byteAt 3 (px j)

lemma smoothImpl_alpha (e : Engine) (s : ℚ) (off : ℕ) :
    byteAt 3 ((startSkinSmoothImpl e s).output off) = byteAt 3 (e.output off) := by
  obtain ⟨w, h, out, rgb, yuv, skin, intg, intg2, sl, wl, bI⟩ := e
  cases intg <;> cases intg2 <;> cases skin <;> cases yuv <;> cases rgb <;>
    try rfl
  dsimp only [startSkinSmoothImpl]
  split
  · exact ycbcrToRgb_byte3 _ _ (byteAt_lt _ _)
  · rfl

lemma whitenImpl_alpha (e : Engine) (l : ℚ) (f : ℕ → ℕ) (hrgb : e.rgb = some f)
    (off : ℕ) :
    byteAt 3 ((startWhiteSkinImpl e l).output off) = byteAt 3 (e.output off) ∨
    byteAt 3 ((startWhiteSkinImpl e l).output off) = byteAt 3 (f off) := by
  obtain ⟨w, h, out, rgb, yuv, skin, intg, intg2, sl, wl, bI⟩ := e
  simp only [Engine.rgb] at hrgb
  subst hrgb
  dsimp only [startWhiteSkinImpl]
  split
  · left
    rfl
  · dsimp only
    split
    · right
      exact whitenPix_byte3 _ _
    · left
      rfl

lemma smoothImpl_alphaInv (px : ℕ → ℕ) (w h : ℕ) (e : Engine) (s : ℚ)
    (hI : alphaInv px w h e) : alphaInv px w h (startSkinSmoothImpl e s) := by
  obtain ⟨hw, hh, hrgb, hout⟩ := hI
  have hF := smoothImpl_fields e s
  exact ⟨hF.1.trans hw, hF.2.1.trans hh, hF.2.2.1.trans hrgb,
    fun j hj => (smoothImpl_alpha e s j).trans (hout j hj)⟩

lemma whitenImpl_alphaInv (px : ℕ → ℕ) (w h : ℕ) (e : Engine) (l : ℚ)
    (hI : alphaInv px w h e) : alphaInv px w h (startWhiteSkinImpl e l) := by
  obtain ⟨hw, hh, hrgb, hout⟩ := hI
  have hF := whitenImpl_fields e l
  refine ⟨hF.1.trans hw, hF.2.1.trans hh, hF.2.2.1.trans hrgb, fun j hj => ?_⟩
  rcases whitenImpl_alpha e l px hrgb j with hc | hc
  · exact hc.trans (hout j hj)
  · exact hc

lemma beautyImpl_alphaInv (px : ℕ → ℕ) (w h : ℕ) (e : Engine) (s l : ℚ)
    (hI : alphaInv px w h e) : alphaInv px w h (startBeautyImpl e s l).1 := by
  unfold startBeautyImpl
  split_ifs with h0 h1 h2 h2
  · exact hI
  · exact whitenImpl_alphaInv px w h _ l
      (smoothImpl_alphaInv px w h { e with smoothLevel := s } s hI)
  · exact smoothImpl_alphaInv px w h { e with smoothLevel := s } s hI
  · exact whitenImpl_alphaInv px w h _ l hI
  · exact hI

lemma runOps_alphaInv (px : ℕ → ℕ) (w h : ℕ) (ops : List BOp) :
    ∀ e : Engine, alphaInv px w h e → alphaInv px w h (runOps e ops) := by
  induction ops with
  | nil => exact fun e hI => hI
  | cons op rest ih =>
    intro e hI
    show alphaInv px w h (runOps (applyOp e op) rest)
    refine ih _ ?_
    cases op with
    | whiten l => exact beautyImpl_alphaInv px w h e e.smoothLevel l hI
    | smooth s => exact beautyImpl_alphaInv px w h e s e.whitenLevel hI

/-- C8: for every pixel inside the image and after any sequence of whiten
and smooth calls on a freshly initialized engine, the alpha byte of the
output pixel equals the alpha byte of the pixel the caller supplied (which
is also the alpha byte of `rgb_copy`): no operation modifies alpha. -/
theorem c8_alpha_preserved (px : ℕ → ℕ) (w h : ℕ) (hsz : isSizeSafe w h = true)
    (ops : List BOp) (i : ℕ) (hi : i < w * h) :
    byteAt 3 ((runOps (goodInit px w h) ops).output i) = byteAt 3 (px i) := by
  have hInit : alphaInv px w h (goodInit px w h) := by
    rw [goodInit_eq px w h hsz]
    exact ⟨rfl, rfl, rfl, fun j _ => rfl⟩
  exact (runOps_alphaInv px w h ops (goodInit px w h) hInit).2.2.2 i hi

/-- C8 (witness): a whiten-then-smooth-then-whiten sequence on the gray
image, checked at pixel 0. -/
theorem c8_alpha_preserved_witness :
    isSizeSafe 64 64 = true ∧ (0 : ℕ) < 64 * 64 ∧
    byteAt 3 ((runOps (goodInit grayPx 64 64)
      [BOp.whiten 2, BOp.smooth 100, BOp.whiten 3]).output 0) =
      byteAt 3 (grayPx 0) :=
  ⟨by decide, by decide,
   c8_alpha_preserved grayPx 64 64 (by decide)
     [BOp.whiten 2, BOp.smooth 100, BOp.whiten 3] 0 (by decide)⟩

/-! ### Claim C9 -/

/-- The buffers and dimensions an effect call must not touch. -/
def sameBuffers (e e' : Engine) : Prop :=
  e'.w = e.w ∧ e'.h = e.h ∧ e'.rgb = e.rgb ∧ e'.skin = e.skin ∧
  e'.intg = e.intg ∧ e'.intgSqr = e.intgSqr

lemma sameBuffers_refl (e : Engine) : sameBuffers e e :=
  ⟨rfl, rfl, rfl, rfl, rfl, rfl⟩

lemma sameBuffers_trans {a b c : Engine} (h1 : sameBuffers a b)
    (h2 : sameBuffers b c) : sameBuffers a c :=
  ⟨h2.1.trans h1.1, h2.2.1.trans h1.2.1, h2.2.2.1.trans h1.2.2.1,
   h2.2.2.2.1.trans h1.2.2.2.1, h2.2.2.2.2.1.trans h1.2.2.2.2.1,
   h2.2.2.2.2.2.trans h1.2.2.2.2.2⟩

lemma smoothImpl_sameBuffers (e : Engine) (s : ℚ) :
    sameBuffers e (startSkinSmoothImpl e s) := by
  have hF := smoothImpl_fields e s
  exact ⟨hF.1, hF.2.1, hF.2.2.1, hF.2.2.2.1, hF.2.2.2.2.1, hF.2.2.2.2.2.1⟩

lemma whitenImpl_sameBuffers (e : Engine) (l : ℚ) :
    sameBuffers e (startWhiteSkinImpl e l) := by
  have hF := whitenImpl_fields e l
  exact ⟨hF.1, hF.2.1, hF.2.2.1, hF.2.2.2.2.1, hF.2.2.2.2.2.1,
    hF.2.2.2.2.2.2.1⟩

lemma beautyImpl_sameBuffers (e : Engine) (s l : ℚ) :
    sameBuffers e (startBeautyImpl e s l).1 := by
  unfold startBeautyImpl
  split_ifs with h0 h1 h2 h2
  · exact sameBuffers_refl e
  · exact sameBuffers_trans
      (sameBuffers_trans (sameBuffers_refl _)
        (smoothImpl_sameBuffers { e with smoothLevel := s } s))
      (whitenImpl_sameBuffers _ l)
  · exact sameBuffers_trans (sameBuffers_refl _)
      (smoothImpl_sameBuffers { e with smoothLevel := s } s)
  · exact whitenImpl_sameBuffers _ l
  · exact sameBuffers_refl e

lemma runOps_sameBuffers (ops : List BOp) :
    ∀ e : Engine, sameBuffers e (runOps e ops) := by
  induction ops with
  | nil => exact fun e => sameBuffers_refl e
  | cons op rest ih =>
    intro e
    show sameBuffers e (runOps (applyOp e op) rest)
    refine sameBuffers_trans ?_ (ih (applyOp e op))
    cases op with
    | whiten l => exact beautyImpl_sameBuffers e e.smoothLevel l
    | smooth s => exact beautyImpl_sameBuffers e s e.whitenLevel

lemma smoothImpl_yuv (e : Engine) (s : ℚ) (f sk g1 g2 : ℕ → ℕ)
    (y : ℕ → ℕ × ℕ × ℕ) (hrgb : e.rgb = some f) (hskin : e.skin = some sk)
    (hintg : e.intg = some g1) (hintg2 : e.intgSqr = some g2)
    (hyuv : e.yuv = some y) :
    (startSkinSmoothImpl e s).yuv =
      some (smoothYuv e.w e.h (e.w * e.h)
        (max 2 (min 20 (max e.w e.h * 2 / 100)))
        (fun off => rgbToYCbCr (f off)) sk g1 g2 s) := by
  obtain ⟨w, h, out, rgb, yuv, skin, intg, intg2, sl, wl, bI⟩ := e
  simp only [Engine.rgb, Engine.skin, Engine.intg, Engine.intgSqr,
    Engine.yuv] at hrgb hskin hintg hintg2 hyuv
  subst hrgb hskin hintg hintg2 hyuv
  rfl

lemma beauty_yuv (e : Engine) (s l : ℚ) (f sk g1 g2 : ℕ → ℕ)
    (y : ℕ → ℕ × ℕ × ℕ) (hin : e.inited = true) (hrgb : e.rgb = some f)
    (hskin : e.skin = some sk) (hintg : e.intg = some g1)
    (hintg2 : e.intgSqr = some g2) (hyuv : e.yuv = some y)
    (hs : 10 ≤ s) (hs2 : s ≤ 510) :
    (startBeautyImpl e s l).1.yuv =
      some (smoothYuv e.w e.h (e.w * e.h)
        (max 2 (min 20 (max e.w e.h * 2 / 100)))
        (fun off => rgbToYCbCr (f off)) sk g1 g2 s) := by
  unfold startBeautyImpl
  rw [if_neg (by simp [hin])]
  dsimp only
  have hsm := smoothImpl_yuv { e with smoothLevel := s } s f sk g1 g2 y
    hrgb hskin hintg hintg2 hyuv
  by_cases h2 : 1 ≤ l ∧ l ≤ 5
  · rw [if_pos h2, if_pos ⟨hs, hs2⟩]
    have hwf := (whitenImpl_fields
      { startSkinSmoothImpl { e with smoothLevel := s } s with
        whitenLevel := l } l).2.2.2.1
    exact hwf.trans hsm
  · rw [if_neg h2, if_pos ⟨hs, hs2⟩]
    exact hsm

/-- C9: `rgb_copy`, `skin`, `sat_y` and `sat_y2` (with the dimensions) are
never mutated by any sequence of whiten and smooth calls after the
initializer returns; and a smoothing call first recomputes the YCbCr buffer
from `rgb_copy`, so the resulting luminance statistics depend only on the
snapshot, the skin mask and the integral images — two initialized engines
agreeing on those (whatever their current `yuv` and output hold, e.g. after
different prior whitening) produce identical `yuv` buffers. -/
theorem c9_buffers_immutable :
    (∀ (e : Engine) (ops : List BOp),
      (runOps e ops).w = e.w ∧ (runOps e ops).h = e.h ∧
      (runOps e ops).rgb = e.rgb ∧ (runOps e ops).skin = e.skin ∧
      (runOps e ops).intg = e.intg ∧ (runOps e ops).intgSqr = e.intgSqr) ∧
    (∀ (e₁ e₂ : Engine) (f sk g1 g2 : ℕ → ℕ) (y₁ y₂ : ℕ → ℕ × ℕ × ℕ) (s : ℚ),
      e₁.inited = true → e₂.inited = true →
      e₁.rgb = some f → e₂.rgb = some f →
      e₁.skin = some sk → e₂.skin = some sk →
      e₁.intg = some g1 → e₂.intg = some g1 →
      e₁.intgSqr = some g2 → e₂.intgSqr = some g2 →
      e₁.yuv = some y₁ → e₂.yuv = some y₂ →
      e₂.w = e₁.w → e₂.h = e₁.h → 10 ≤ s → s ≤ 510 →
      (startSkinSmooth e₁ s).1.yuv = (startSkinSmooth e₂ s).1.yuv) := by
  constructor
  · intro e ops
    exact runOps_sameBuffers ops e
  · intro e₁ e₂ f sk g1 g2 y₁ y₂ s hin₁ hin₂ hr₁ hr₂ hk₁ hk₂ hg₁ hg₂ hq₁ hq₂
      hy₁ hy₂ hw hh hs hs2
    have h₁ := beauty_yuv e₁ s e₁.whitenLevel f sk g1 g2 y₁ hin₁ hr₁ hk₁ hg₁
      hq₁ hy₁ hs hs2
    have h₂ := beauty_yuv e₂ s e₂.whitenLevel f sk g1 g2 y₂ hin₂ hr₂ hk₂ hg₂
      hq₂ hy₂ hs hs2
    rw [hw, hh] at h₂
    exact h₁.trans h₂.symm

/-- C9 (witness): buffer preservation on a freshly initialized gray engine
through a whiten-then-smooth sequence, and yuv agreement between two
concrete engines that differ only in their current yuv and output. -/
theorem c9_buffers_immutable_witness :
    ((runOps (goodInit grayPx 64 64) [BOp.whiten 2, BOp.smooth 100]).w =
        (goodInit grayPx 64 64).w ∧
     (runOps (goodInit grayPx 64 64) [BOp.whiten 2, BOp.smooth 100]).h =
        (goodInit grayPx 64 64).h ∧
     (runOps (goodInit grayPx 64 64) [BOp.whiten 2, BOp.smooth 100]).rgb =
        (goodInit grayPx 64 64).rgb ∧
     (runOps (goodInit grayPx 64 64) [BOp.whiten 2, BOp.smooth 100]).skin =
        (goodInit grayPx 64 64).skin ∧
     (runOps (goodInit grayPx 64 64) [BOp.whiten 2, BOp.smooth 100]).intg =
        (goodInit grayPx 64 64).intg ∧
     (runOps (goodInit grayPx 64 64) [BOp.whiten 2, BOp.smooth 100]).intgSqr =
        (goodInit grayPx 64 64).intgSqr) ∧
    (startSkinSmooth
        { w := 64, h := 64, output := grayPx, rgb := some grayPx,
          yuv := some (fun _ => (0, 0, 0)), skin := some (fun _ => 0),
          intg := some (fun _ => 0), intgSqr := some (fun _ => 0),
          smoothLevel := 0, whitenLevel := 0, inited := true } 100).1.yuv =
      (startSkinSmooth
        { w := 64, h := 64, output := redPx, rgb := some grayPx,
          yuv := some (fun _ => (9, 9, 9)), skin := some (fun _ => 0),
          intg := some (fun _ => 0), intgSqr := some (fun _ => 0),
          smoothLevel := 0, whitenLevel := 0, inited := true } 100).1.yuv :=
  ⟨c9_buffers_immutable.1 (goodInit grayPx 64 64) [BOp.whiten 2, BOp.smooth 100],
   c9_buffers_immutable.2 _ _ grayPx (fun _ => 0) (fun _ => 0) (fun _ => 0)
     (fun _ => (0, 0, 0)) (fun _ => (9, 9, 9)) 100 rfl rfl rfl rfl rfl rfl rfl
     rfl rfl rfl rfl rfl rfl rfl (by norm_num) (by norm_num)⟩
